import Mathlib

/-!
Verification of the DATx block-production core (package `miner`,
`src/unnamed/part_008`) and the LES protocol handler (`src/les/handler.go`)
against the natural-language specification, via a shallow embedding.

External collaborators (`core`, `types`, `params`, `state` packages) are not
part of the sources; where one of their operations decides a claim it is
modelled from the spec, and each such definition says so in its doc comment.
-/

namespace DATx

/-- Chain configuration fields read by the mining core.  Modelled from the
spec: `params.ChainConfig` is an external collaborator; EIP155
replay-protection rules are active at a block number once the configured
activation block is reached (`IsEIP155`). -/
structure ChainConfig where
  eip155Block : Option Nat
deriving DecidableEq, Repr

/-- Whether the EIP155 rules are active at `number` (`ChainConfig.IsEIP155`). -/
def ChainConfig.IsEIP155 (c : ChainConfig) (number : Nat) : Bool :=
  match c.eip155Block with
  | some b => decide (b ≤ number)
  | none => false

/-- A pending transaction, restricted to the fields the mining core reads:
the sender recovered by `types.Sender`, the nonce, the gas it consumes when
applied, whether it is EIP155 replay-protected (`tx.Protected()`), and a flag
modelling an execution failure inside the state engine (the "strange error"
default case of the decision table). -/
structure Transaction where
  sender : Nat
  nonce : Nat
  gas : Nat
  Protected : Bool
  failsOther : Bool
deriving DecidableEq, Repr

/-- Modelled from the spec: the external state engine's `state.StateDB`,
reduced to the per-sender account nonces that the transaction decision table
depends on, with value-style `Snapshot`/`RevertToSnapshot`. -/
structure StateDB where
  nonces : List (Nat × Nat)
deriving DecidableEq, Repr

def StateDB.getNonce (s : StateDB) (addr : Nat) : Nat :=
  (s.nonces.lookup addr).getD 0

def StateDB.incNonce (s : StateDB) (addr : Nat) : StateDB :=
  ⟨(addr, s.getNonce addr + 1) :: s.nonces⟩

/-- Modelled from the spec: the DPoS context mutated by transaction
application, with value-style snapshot/revert; represented by its root. -/
structure DposContext where
  root : Nat
deriving DecidableEq, Repr

/-- A transaction receipt: the gas this transaction consumed and its logs. -/
structure Receipt where
  gasUsed : Nat
  logs : List Nat
deriving DecidableEq, Repr

/-- A block header, restricted to the fields the mining core reads or writes
(parent hash, number, gas limit/used, timestamp, extra data, coinbase, the
DPoS validator field filled by `Prepare`, and the state root). -/
structure Header where
  parentHash : Nat
  number : Nat
  gasLimit : Nat
  gasUsed : Nat
  time : Nat
  extra : List Nat
  coinbase : Nat
  validator : Nat
  root : Nat
deriving DecidableEq, Repr

/-- The header content hash (a block's identity is its header hash); the
cryptographic hash is modelled by an injective pairing of the header fields. -/
def Header.hashNat (h : Header) : Nat :=
  Nat.pair h.parentHash (Nat.pair h.number (Nat.pair h.root h.time))

/-- A block: header plus transaction list, immutable once sealed. -/
structure Block where
  header : Header
  txs : List Transaction
deriving DecidableEq, Repr

/-- Blocks are identified by `Block.Hash()`, the header's content hash. -/
def Block.hash (b : Block) : Nat :=
  b.header.hashNat

/-- Structure `Work` (src/unnamed/part_008, lines 56-76): the worker's current
environment — chain config, state view, DPoS context, transaction count,
the produced block, the candidate header and the running transaction and
receipt lists.  The uncle bookkeeping sets and the creation timestamp are
not read by any claim and are omitted. -/
structure Work where
  config : ChainConfig
  state : StateDB
  dposContext : DposContext
  tcount : Nat
  Block : Option DATx.Block
  header : Header
  txs : List Transaction
  receipts : List Receipt
deriving DecidableEq, Repr

/-- The typed per-transaction errors of the state engine
(`core.ErrGasLimitReached`, `core.ErrNonceTooLow`, `core.ErrNonceTooHigh`),
plus a constructor standing for any other execution error. -/
inductive TxError where
  | ErrGasLimitReached
  | ErrNonceTooLow
  | ErrNonceTooHigh
  | ErrOther
deriving DecidableEq, Repr

/-- Modelled from the spec: `core.ApplyTransaction` — the external state
engine applies one transaction against the state view and returns a receipt
or a typed error.  Nonce mismatches yield `ErrNonceTooLow`/`ErrNonceTooHigh`;
a gas requirement beyond the remaining shared gas pool yields
`ErrGasLimitReached` with the pool untouched.  On success the pool is
decremented by the consumed gas and the header's running `gasUsed` grows by
the same amount.  A failing execution (`ErrOther`) may leave partial
mutations in the state view and DPoS context — which is why the caller
snapshots and reverts — but never consumes pool gas. -/
def ApplyTransaction (dctx : DposContext) (gp : Nat) (st : StateDB)
    (header : Header) (tx : Transaction) :
    Except (TxError × StateDB × DposContext)
      (Receipt × StateDB × DposContext × Header × Nat) :=
  if tx.nonce < st.getNonce tx.sender then .error (.ErrNonceTooLow, st, dctx)
  else if st.getNonce tx.sender < tx.nonce then .error (.ErrNonceTooHigh, st, dctx)
  else if gp < tx.gas then .error (.ErrGasLimitReached, st, dctx)
  else if tx.failsOther then .error (.ErrOther, st.incNonce tx.sender, ⟨dctx.root + 1⟩)
  else .ok (⟨tx.gas, [Nat.pair tx.sender tx.nonce]⟩, st.incNonce tx.sender,
    ⟨dctx.root + 1⟩, { header with gasUsed := header.gasUsed + tx.gas }, gp - tx.gas)

/-- Translation of `Work.commitTransaction` (src/unnamed/part_008, lines 587-600): snapshot
the state and the DPoS context, apply the transaction, revert both snapshots
on error, and append the transaction and its receipt on success.  Returns the
error together with the logs, the updated work and the updated gas pool. -/
def Work.commitTransaction (env : Work) (gp : Nat) (tx : Transaction) :
    (Option TxError × List Nat) × Work × Nat :=
  let snap := env.state
  let dposSnap := env.dposContext
  match ApplyTransaction env.dposContext gp env.state env.header tx with
  | .error (e, _, _) =>
      ((some e, []), { env with state := snap, dposContext := dposSnap }, gp)
  | .ok (receipt, st, dctx, hdr, gpRest) =>
      ((none, receipt.logs),
        { env with
            state := st
            dposContext := dctx
            header := hdr
            txs := env.txs ++ [tx]
            receipts := env.receipts ++ [receipt] },
        gpRest)

/-- Modelled from the spec: `types.TransactionsByPriceAndNonce` — the pending
transactions as one nonce-ordered queue per sender, merged by decreasing
effective gas price.  Each queue is kept as its head transaction plus the
remainder, so queues are never empty.  `Peek` views the best head, `Shift`
advances within the best sender's queue, `Pop` drops the best sender's
remaining queue. -/
structure TransactionsByPriceAndNonce where
  queues : List (Transaction × List Transaction)
deriving DecidableEq, Repr

def TransactionsByPriceAndNonce.Peek (t : TransactionsByPriceAndNonce) :
    Option Transaction :=
  t.queues.head?.map Prod.fst

def TransactionsByPriceAndNonce.Shift (t : TransactionsByPriceAndNonce) :
    TransactionsByPriceAndNonce :=
  match t.queues with
  | [] => ⟨[]⟩
  | (_, []) :: rest => ⟨rest⟩
  | (_, next :: q) :: rest => ⟨(next, q) :: rest⟩

def TransactionsByPriceAndNonce.Pop (t : TransactionsByPriceAndNonce) :
    TransactionsByPriceAndNonce :=
  ⟨t.queues.tail⟩

/-- Total number of pending transactions in the selector. -/
def TransactionsByPriceAndNonce.size (t : TransactionsByPriceAndNonce) : Nat :=
  (t.queues.map (fun q => q.2.length + 1)).sum

theorem TransactionsByPriceAndNonce.size_Pop_lt (t : TransactionsByPriceAndNonce)
    (tx : Transaction) (h : t.Peek = some tx) : t.Pop.size < t.size := by
  rcases t with ⟨⟨⟩ | ⟨⟨a, q⟩, rest⟩⟩
  · simp [Peek] at h
  · simp only [Pop, size, List.tail_cons, List.map_cons, List.sum_cons]
    omega

theorem TransactionsByPriceAndNonce.size_Shift_lt (t : TransactionsByPriceAndNonce)
    (tx : Transaction) (h : t.Peek = some tx) : t.Shift.size < t.size := by
  rcases t with ⟨⟨⟩ | ⟨⟨a, ⟨⟩ | ⟨n, q⟩⟩, rest⟩⟩
  · simp [Peek] at h
  · simp [Shift, size]
  · simp [Shift, size]

/-- The selection loop body of `Work.commitTransactions`
(src/unnamed/part_008, lines 513-565): peek the best pending transaction and
stop when the selector is exhausted; pop replay-protected transactions while
EIP155 is not yet active; otherwise attempt the transaction and decide by its
error: `ErrGasLimitReached` pops the sender, `ErrNonceTooLow` shifts,
`ErrNonceTooHigh` pops, success collects the logs, increments the transaction
count and shifts, and any other error shifts — no error leaves the loop. -/
def commitTxsGo (env : Work) (gp : Nat) (txs : TransactionsByPriceAndNonce)
    (coalescedLogs : List Nat) : Work × Nat × List Nat :=
  match h : txs.Peek with
  | none => (env, gp, coalescedLogs)
  | some tx =>
    if tx.Protected && !env.config.IsEIP155 env.header.number then
      commitTxsGo env gp txs.Pop coalescedLogs
    else
      match env.commitTransaction gp tx with
      | ((some .ErrGasLimitReached, _), env1, gp1) =>
          commitTxsGo env1 gp1 txs.Pop coalescedLogs
      | ((some .ErrNonceTooLow, _), env1, gp1) =>
          commitTxsGo env1 gp1 txs.Shift coalescedLogs
      | ((some .ErrNonceTooHigh, _), env1, gp1) =>
          commitTxsGo env1 gp1 txs.Pop coalescedLogs
      | ((none, logs), env1, gp1) =>
          commitTxsGo { env1 with tcount := env1.tcount + 1 } gp1 txs.Shift
            (coalescedLogs ++ logs)
      | ((some .ErrOther, _), env1, gp1) =>
          commitTxsGo env1 gp1 txs.Shift coalescedLogs
termination_by txs.size
decreasing_by
  all_goals first
    | exact TransactionsByPriceAndNonce.size_Pop_lt txs tx h
    | exact TransactionsByPriceAndNonce.size_Shift_lt txs tx h

/-- Translation of `Work.commitTransactions` (src/unnamed/part_008, lines 508-585):
initialize the shared gas pool from the candidate header's gas limit and run
the selection loop over the pending transactions.  The closing asynchronous
pending-logs/pending-state notifications are fire-and-forget side effects and
are not modelled.  Returns the final work, the pool remainder and the
coalesced logs. -/
def Work.commitTransactions (env : Work) (txs : TransactionsByPriceAndNonce) :
    Work × Nat × List Nat :=
  commitTxsGo env env.header.gasLimit txs []

/-- Loop exit: an exhausted selector ends the batch with everything as is. -/
theorem commitTxsGo_peek_none (env : Work) (gp : Nat)
    (txs : TransactionsByPriceAndNonce) (L : List Nat) (h : txs.Peek = none) :
    commitTxsGo env gp txs L = (env, gp, L) := by
  rw [commitTxsGo.eq_def]
  split
  · rfl
  · rename_i tx heq
    rw [h] at heq
    cases heq

/-- The replay-protection guard: a protected transaction while EIP155 is not
active at the candidate number pops the sender and continues, with the
environment and the gas pool untouched. -/
theorem commitTxsGo_protected_pop (env : Work) (gp : Nat)
    (txs : TransactionsByPriceAndNonce) (L : List Nat) (tx : Transaction)
    (hp : txs.Peek = some tx) (hprot : tx.Protected = true)
    (h155 : env.config.IsEIP155 env.header.number = false) :
    commitTxsGo env gp txs L = commitTxsGo env gp txs.Pop L := by
  conv_lhs => rw [commitTxsGo.eq_def]
  split
  · rename_i heq
    rw [hp] at heq
    cases heq
  · rename_i tx' heq
    rw [hp] at heq
    injection heq with heq'
    subst heq'
    have hcond : (tx.Protected && !env.config.IsEIP155 env.header.number) = true := by
      rw [hprot, h155]
      rfl
    rw [if_pos hcond]

/-- One iteration of the selection loop past the replay-protection guard is
the decision table applied to the attempted transaction's outcome. -/
theorem commitTxsGo_step (env : Work) (gp : Nat)
    (txs : TransactionsByPriceAndNonce) (L : List Nat) (tx : Transaction)
    (hp : txs.Peek = some tx)
    (hguard : (tx.Protected && !env.config.IsEIP155 env.header.number) = false) :
    commitTxsGo env gp txs L =
      match env.commitTransaction gp tx with
      | ((some .ErrGasLimitReached, _), env1, gp1) =>
          commitTxsGo env1 gp1 txs.Pop L
      | ((some .ErrNonceTooLow, _), env1, gp1) =>
          commitTxsGo env1 gp1 txs.Shift L
      | ((some .ErrNonceTooHigh, _), env1, gp1) =>
          commitTxsGo env1 gp1 txs.Pop L
      | ((none, logs), env1, gp1) =>
          commitTxsGo { env1 with tcount := env1.tcount + 1 } gp1 txs.Shift (L ++ logs)
      | ((some .ErrOther, _), env1, gp1) =>
          commitTxsGo env1 gp1 txs.Shift L := by
  conv_lhs => rw [commitTxsGo.eq_def]
  split
  · rename_i heq
    rw [hp] at heq
    cases heq
  · rename_i tx' heq
    rw [hp] at heq
    injection heq with heq'
    subst heq'
    have hcond : ¬((tx.Protected && !env.config.IsEIP155 env.header.number) = true) := by
      rw [hguard]
      simp
    rw [if_neg hcond]

/-- Unfolding `commitTransaction` on a state-engine error: both snapshots are
restored, nothing is appended, no logs are returned and the pool is kept. -/
theorem commitTransaction_def_error (env : Work) (gp : Nat) (tx : Transaction)
    (e : TxError) (st : StateDB) (dctx : DposContext)
    (happ : ApplyTransaction env.dposContext gp env.state env.header tx
      = .error (e, st, dctx)) :
    env.commitTransaction gp tx = ((some e, []), env, gp) := by
  unfold Work.commitTransaction
  rw [happ]

/-- Unfolding `commitTransaction` on state-engine success: the new state and
context are adopted and the transaction and its receipt are appended. -/
theorem commitTransaction_def_ok (env : Work) (gp : Nat) (tx : Transaction)
    (receipt : Receipt) (st : StateDB) (dctx : DposContext) (hdr : Header)
    (gpRest : Nat)
    (happ : ApplyTransaction env.dposContext gp env.state env.header tx
      = .ok (receipt, st, dctx, hdr, gpRest)) :
    env.commitTransaction gp tx =
      ((none, receipt.logs),
        { env with
            state := st
            dposContext := dctx
            header := hdr
            txs := env.txs ++ [tx]
            receipts := env.receipts ++ [receipt] },
        gpRest) := by
  unfold Work.commitTransaction
  rw [happ]

/-- Inversion of the modelled state engine on success: the receipt's consumed
gas is the transaction's gas, drawn exactly once from the pool, and only the
header's running `gasUsed` changes. -/
theorem ApplyTransaction_ok_inv (dctx : DposContext) (gp : Nat) (st : StateDB)
    (header : Header) (tx : Transaction) (receipt : Receipt) (st' : StateDB)
    (dctx' : DposContext) (hdr' : Header) (gpRest : Nat)
    (h : ApplyTransaction dctx gp st header tx
      = .ok (receipt, st', dctx', hdr', gpRest)) :
    receipt.gasUsed = tx.gas ∧ gpRest + tx.gas = gp ∧
      hdr' = { header with gasUsed := header.gasUsed + tx.gas } := by
  unfold ApplyTransaction at h
  split_ifs at h with h1 h2 h3 h4
  simp only [Except.ok.injEq, Prod.mk.injEq] at h
  obtain ⟨hrec, hst, hdctx, hhdr, hgp⟩ := h
  subst hrec hhdr hgp
  refine ⟨rfl, ?_, rfl⟩
  omega

/-- A `commitTransaction` error leaves the work and the pool
exactly as they were. -/
theorem commitTransaction_error_eq (env : Work) (gp : Nat) (tx : Transaction)
    (e : TxError) (lgs : List Nat) (env1 : Work) (gp1 : Nat)
    (hc : env.commitTransaction gp tx = ((some e, lgs), env1, gp1)) :
    env1 = env ∧ gp1 = gp ∧ lgs = [] := by
  rcases happ : ApplyTransaction env.dposContext gp env.state env.header tx with
    ⟨e', st', dctx'⟩ | ⟨receipt', st', dctx', hdr', gpRest⟩
  · rw [commitTransaction_def_error env gp tx e' st' dctx' happ] at hc
    simp only [Prod.mk.injEq] at hc
    exact ⟨hc.2.1.symm, hc.2.2.symm, hc.1.2.symm⟩
  · rw [commitTransaction_def_ok env gp tx receipt' st' dctx' hdr' gpRest happ] at hc
    simp only [Prod.mk.injEq] at hc
    cases hc.1.1

/-- A successful `commitTransaction` appended the transaction and a receipt for
it — exactly once — with the receipt's gas drawn from the pool, and touched
nothing in the header but the running `gasUsed`. -/
theorem commitTransaction_ok_inv (env : Work) (gp : Nat) (tx : Transaction)
    (lgs : List Nat) (env1 : Work) (gp1 : Nat)
    (hc : env.commitTransaction gp tx = ((none, lgs), env1, gp1)) :
    ∃ receipt : Receipt,
      env1.txs = env.txs ++ [tx] ∧
      env1.receipts = env.receipts ++ [receipt] ∧
      gp1 + receipt.gasUsed = gp ∧
      env1.header = { env.header with gasUsed := env.header.gasUsed + receipt.gasUsed } ∧
      env1.config = env.config ∧ env1.tcount = env.tcount := by
  rcases happ : ApplyTransaction env.dposContext gp env.state env.header tx with
    ⟨e', st', dctx'⟩ | ⟨receipt', st', dctx', hdr', gpRest⟩
  · rw [commitTransaction_def_error env gp tx e' st' dctx' happ] at hc
    simp only [Prod.mk.injEq] at hc
    cases hc.1.1
  · rw [commitTransaction_def_ok env gp tx receipt' st' dctx' hdr' gpRest happ] at hc
    simp only [Prod.mk.injEq] at hc
    obtain ⟨-, henv, hgp⟩ := hc
    obtain ⟨hgas, hpool, hhdr⟩ :=
      ApplyTransaction_ok_inv env.dposContext gp env.state env.header tx
        receipt' st' dctx' hdr' gpRest happ
    subst henv hgp
    refine ⟨receipt', rfl, rfl, by omega, ?_, rfl, rfl⟩
    show hdr' = _
    rw [hhdr, hgas]

/-- Total gas recorded by a list of receipts. -/
def sumGas (rs : List Receipt) : Nat :=
  (rs.map Receipt.gasUsed).sum

/-- The batch invariant of the selection loop: the receipt list grows only by
the receipts of successfully applied transactions, whose recorded gas
accounts exactly for the gas drawn from the shared pool, and the header's
linkage fields and gas limit are never touched. -/
theorem commitTxsGo_invariant (n : Nat) :
    ∀ txs : TransactionsByPriceAndNonce, txs.size ≤ n →
    ∀ (env : Work) (gp : Nat) (L : List Nat),
      ∃ rs : List Receipt,
        (commitTxsGo env gp txs L).1.receipts = env.receipts ++ rs ∧
        (commitTxsGo env gp txs L).2.1 + sumGas rs = gp ∧
        (commitTxsGo env gp txs L).1.header.parentHash = env.header.parentHash ∧
        (commitTxsGo env gp txs L).1.header.number = env.header.number ∧
        (commitTxsGo env gp txs L).1.header.gasLimit = env.header.gasLimit := by
  induction n with
  | zero =>
    intro txs hsz env gp L
    have hp : txs.Peek = none := by
      rcases txs with ⟨⟨⟩ | ⟨⟨a, q⟩, rest⟩⟩
      · rfl
      · exfalso
        simp [TransactionsByPriceAndNonce.size] at hsz
    rw [commitTxsGo_peek_none env gp txs L hp]
    exact ⟨[], by simp, by simp [sumGas], rfl, rfl, rfl⟩
  | succ n ih =>
    intro txs hsz env gp L
    cases hp : txs.Peek with
    | none =>
      rw [commitTxsGo_peek_none env gp txs L hp]
      exact ⟨[], by simp, by simp [sumGas], rfl, rfl, rfl⟩
    | some tx =>
      have hPopLe : txs.Pop.size ≤ n := by
        have := TransactionsByPriceAndNonce.size_Pop_lt txs tx hp
        omega
      have hShiftLe : txs.Shift.size ≤ n := by
        have := TransactionsByPriceAndNonce.size_Shift_lt txs tx hp
        omega
      by_cases hg : (tx.Protected && !env.config.IsEIP155 env.header.number) = true
      · simp only [Bool.and_eq_true, Bool.not_eq_true'] at hg
        rw [commitTxsGo_protected_pop env gp txs L tx hp hg.1 hg.2]
        exact ih txs.Pop hPopLe env gp L
      · have hg' : (tx.Protected && !env.config.IsEIP155 env.header.number) = false := by
          revert hg
          cases tx.Protected && !env.config.IsEIP155 env.header.number <;> simp
        rw [commitTxsGo_step env gp txs L tx hp hg']
        rcases hc : env.commitTransaction gp tx with ⟨⟨err, lgs⟩, env1, gp1⟩
        cases err with
        | none =>
          obtain ⟨receipt, htxs, hrec, hgas, hhdr, hcfg, htc⟩ :=
            commitTransaction_ok_inv env gp tx lgs env1 gp1 hc
          obtain ⟨rs, h1, h2, h3, h4, h5⟩ :=
            ih txs.Shift hShiftLe { env1 with tcount := env1.tcount + 1 } gp1 (L ++ lgs)
          refine ⟨receipt :: rs, ?_, ?_, ?_, ?_, ?_⟩
          · simpa [hrec] using h1
          · simp only [sumGas, List.map_cons, List.sum_cons] at h2 ⊢
            omega
          · rw [h3, hhdr]
          · rw [h4, hhdr]
          · rw [h5, hhdr]
        | some e =>
          obtain ⟨he, hgp, -⟩ := commitTransaction_error_eq env gp tx e lgs env1 gp1 hc
          subst he hgp
          cases e
          · exact ih txs.Pop hPopLe env1 gp1 L
          · exact ih txs.Shift hShiftLe env1 gp1 L
          · exact ih txs.Pop hPopLe env1 gp1 L
          · exact ih txs.Shift hShiftLe env1 gp1 L

/-- The decision table of the selection loop, as the spec states it: the
outcome of attempting the peeked transaction determines exactly whether the
sender is popped or the selector shifts, whether the transaction and its
receipt are appended and the count incremented, and in every case the loop
continues on the remaining queue. -/
def DecisionTable (env : Work) (gp : Nat) (txs : TransactionsByPriceAndNonce)
    (L : List Nat) (tx : Transaction) : Prop :=
  (∀ lgs env1 gp1,
      env.commitTransaction gp tx = ((some .ErrGasLimitReached, lgs), env1, gp1) →
      commitTxsGo env gp txs L = commitTxsGo env1 gp1 txs.Pop L) ∧
  (∀ lgs env1 gp1,
      env.commitTransaction gp tx = ((some .ErrNonceTooLow, lgs), env1, gp1) →
      commitTxsGo env gp txs L = commitTxsGo env1 gp1 txs.Shift L) ∧
  (∀ lgs env1 gp1,
      env.commitTransaction gp tx = ((some .ErrNonceTooHigh, lgs), env1, gp1) →
      commitTxsGo env gp txs L = commitTxsGo env1 gp1 txs.Pop L) ∧
  (∀ lgs env1 gp1,
      env.commitTransaction gp tx = ((none, lgs), env1, gp1) →
      commitTxsGo env gp txs L =
        commitTxsGo { env1 with tcount := env1.tcount + 1 } gp1 txs.Shift (L ++ lgs) ∧
      env1.txs = env.txs ++ [tx] ∧ ∃ r, env1.receipts = env.receipts ++ [r]) ∧
  (∀ lgs env1 gp1,
      env.commitTransaction gp tx = ((some .ErrOther, lgs), env1, gp1) →
      commitTxsGo env gp txs L = commitTxsGo env1 gp1 txs.Shift L)

/-- C1: every transaction attempted by `Work.commitTransactions` is
handled exactly by the decision table: `ErrGasLimitReached` pops the sender's
queue for this block without aborting the loop, `ErrNonceTooLow` shifts to
the sender's next transaction without popping, `ErrNonceTooHigh` pops the
sender's remaining queue, success appends the transaction and its receipt,
increments the transaction count and shifts, and any other error skips the
transaction via shift — in every case the loop continues. -/
theorem commitTransactions_decision_table (env : Work) (gp : Nat)
    (txs : TransactionsByPriceAndNonce) (L : List Nat) (tx : Transaction)
    (hp : txs.Peek = some tx)
    (hguard : (tx.Protected && !env.config.IsEIP155 env.header.number) = false) :
    DecisionTable env gp txs L tx := by
  refine ⟨?_, ?_, ?_, ?_, ?_⟩ <;> intro lgs env1 gp1 h
  · rw [commitTxsGo_step env gp txs L tx hp hguard, h]
  · rw [commitTxsGo_step env gp txs L tx hp hguard, h]
  · rw [commitTxsGo_step env gp txs L tx hp hguard, h]
  · obtain ⟨receipt, htxs, hrec, -, -, -, -⟩ :=
      commitTransaction_ok_inv env gp tx lgs env1 gp1 h
    exact ⟨by rw [commitTxsGo_step env gp txs L tx hp hguard, h], htxs, receipt, hrec⟩
  · rw [commitTxsGo_step env gp txs L tx hp hguard, h]

/-- A sample candidate header used in the concrete witnesses. -/
def sampleHeader : Header :=
  { parentHash := 0, number := 1, gasLimit := 100, gasUsed := 0, time := 10,
    extra := [], coinbase := 0, validator := 0, root := 0 }

/-- A sample unprotected transaction. -/
def sampleTx : Transaction :=
  { sender := 1, nonce := 0, gas := 5, Protected := false, failsOther := false }

/-- A selector holding only `sampleTx`. -/
def sampleTxs : TransactionsByPriceAndNonce := ⟨[(sampleTx, [])]⟩

/-- A sample work environment with EIP155 active from genesis. -/
def sampleEnv : Work :=
  { config := ⟨some 0⟩, state := ⟨[]⟩, dposContext := ⟨0⟩, tcount := 0,
    Block := none, header := sampleHeader, txs := [], receipts := [] }

/-- Variant of `sampleEnv` with the sender's account nonce already past `sampleTx`. -/
def sampleEnvLow : Work := { sampleEnv with state := ⟨[(1, 1)]⟩ }

/-- A replay-protected sample transaction. -/
def sampleProtTx : Transaction := { sampleTx with sender := 2, Protected := true }

/-- A selector holding only `sampleProtTx`. -/
def sampleProtTxs : TransactionsByPriceAndNonce := ⟨[(sampleProtTx, [])]⟩

/-- Variant of `sampleEnv` with no EIP155 activation block configured. -/
def sampleEnvNo155 : Work := { sampleEnv with config := ⟨none⟩ }

/-- Concrete instantiation of the decision-table theorem. -/
theorem commitTransactions_decision_table_witness :
    sampleTxs.Peek = some sampleTx ∧
    (sampleTx.Protected && !sampleEnv.config.IsEIP155 sampleEnv.header.number) = false ∧
    DecisionTable sampleEnv 100 sampleTxs [] sampleTx :=
  ⟨by decide, by decide,
    commitTransactions_decision_table sampleEnv 100 sampleTxs [] sampleTx
      (by decide) (by decide)⟩

/-- The rollback/append contract of `Work.commitTransaction`: an error from
`ApplyTransaction` returns the work reverted to the pre-attempt snapshots of
state and DPoS context with the transaction and receipt lists untouched and
the pool intact; success appends the transaction and its receipt exactly
once. -/
def RollbackSpec (env : Work) (gp : Nat) (tx : Transaction) : Prop :=
  (∀ e st dctx,
      ApplyTransaction env.dposContext gp env.state env.header tx = .error (e, st, dctx) →
      env.commitTransaction gp tx = ((some e, []), env, gp)) ∧
  (∀ lgs env1 gp1,
      env.commitTransaction gp tx = ((none, lgs), env1, gp1) →
      ∃ receipt, env1.txs = env.txs ++ [tx] ∧ env1.receipts = env.receipts ++ [receipt])

/-- C2: for every transaction attempted by `Work.commitTransaction`, an
`ApplyTransaction` error reverts state and DPoS context to the snapshots
taken immediately before the attempt and leaves the transaction and receipt
lists unchanged; the transaction is appended exactly once, only on success. -/
theorem commitTransaction_rollback (env : Work) (gp : Nat) (tx : Transaction) :
    RollbackSpec env gp tx := by
  constructor
  · intro e st dctx happ
    exact commitTransaction_def_error env gp tx e st dctx happ
  · intro lgs env1 gp1 hc
    obtain ⟨receipt, htxs, hrec, -, -, -, -⟩ :=
      commitTransaction_ok_inv env gp tx lgs env1 gp1 hc
    exact ⟨receipt, htxs, hrec⟩

/-- Concrete instantiation of the rollback contract at a nonce-too-low
failure: the modelled engine rejects and the work is returned untouched. -/
theorem commitTransaction_rollback_witness :
    ApplyTransaction sampleEnvLow.dposContext 100 sampleEnvLow.state
        sampleEnvLow.header sampleTx
      = .error (.ErrNonceTooLow, sampleEnvLow.state, sampleEnvLow.dposContext) ∧
    sampleEnvLow.commitTransaction 100 sampleTx
      = ((some .ErrNonceTooLow, []), sampleEnvLow, 100) :=
  ⟨by rfl,
    (commitTransaction_rollback sampleEnvLow 100 sampleTx).1
      .ErrNonceTooLow sampleEnvLow.state sampleEnvLow.dposContext (by rfl)⟩

/-- C4: in every run of `Work.commitTransactions` the shared gas pool is
initialized to the candidate header's gas limit, and after the batch the
remaining pool equals the gas limit minus the total gas recorded by the
receipts of the successfully applied transactions — never negative. -/
theorem commitTransactions_gas_accounting (env : Work)
    (txs : TransactionsByPriceAndNonce) :
    sumGas ((env.commitTransactions txs).1.receipts.drop env.receipts.length)
        ≤ env.header.gasLimit ∧
    (env.commitTransactions txs).2.1 =
      env.header.gasLimit -
        sumGas ((env.commitTransactions txs).1.receipts.drop env.receipts.length) := by
  obtain ⟨rs, h1, h2, -, -, -⟩ :=
    commitTxsGo_invariant txs.size txs le_rfl env env.header.gasLimit []
  unfold Work.commitTransactions
  rw [h1, List.drop_left]
  omega

/-- C10: the sixth decision branch of `Work.commitTransactions`, absent
from the spec's taxonomy: a replay-protected (EIP155-signed) transaction
while the chain configuration's EIP155 rules are not active at the candidate
header's number pops the sender's queue before any execution or state
change — the environment and the gas pool are passed on untouched. -/
theorem commitTransactions_protected_guard (env : Work) (gp : Nat)
    (txs : TransactionsByPriceAndNonce) (L : List Nat) (tx : Transaction)
    (hp : txs.Peek = some tx) (hprot : tx.Protected = true)
    (h155 : env.config.IsEIP155 env.header.number = false) :
    commitTxsGo env gp txs L = commitTxsGo env gp txs.Pop L :=
  commitTxsGo_protected_pop env gp txs L tx hp hprot h155

/-- Concrete instantiation of the replay-protection guard. -/
theorem commitTransactions_protected_guard_witness :
    sampleProtTxs.Peek = some sampleProtTx ∧
    sampleProtTx.Protected = true ∧
    sampleEnvNo155.config.IsEIP155 sampleEnvNo155.header.number = false ∧
    commitTxsGo sampleEnvNo155 100 sampleProtTxs [] =
      commitTxsGo sampleEnvNo155 100 sampleProtTxs.Pop [] :=
  ⟨by decide, by decide, by decide,
    commitTransactions_protected_guard sampleEnvNo155 100 sampleProtTxs []
      sampleProtTx (by decide) (by decide) (by decide)⟩

/-- Structure `Result` (src/unnamed/part_008, lines 78-81): a sealed block together
with the work that produced it, handed from `mintBlock` to `wait`. -/
structure Result where
  Work : DATx.Work
  Block : Option DATx.Block
deriving DecidableEq, Repr

/-- The typed eligibility errors of `dpos.CheckValidator`
(`ErrWaitForPrevBlock`, `ErrMintFutureBlock`, `ErrInvalidBlockValidator`,
`ErrInvalidMintBlockTime`), plus a constructor for any other error. -/
inductive CheckValidatorError where
  | ErrWaitForPrevBlock
  | ErrMintFutureBlock
  | ErrInvalidBlockValidator
  | ErrInvalidMintBlockTime
  | otherErr
deriving DecidableEq, Repr

/-- Translation of `worker.mintBlock` (src/unnamed/part_008, lines 205-236), with the
outcomes of its collaborators supplied as inputs: a non-DPoS engine, any
`CheckValidator` error (one of the four typed eligibility errors or any
other), a `createNewWork` failure or a `Seal` failure each abandon the
attempt with a log and return normally with no result; only a fully
successful attempt hands a `Result` to the commit channel (`recv`). -/
def mintBlock (isDpos : Bool) (checkValidator : Option CheckValidatorError)
    (createWork : Except String Work) (Seal : Work → Except Unit DATx.Block) :
    Option Result :=
  if !isDpos then none
  else
    match checkValidator with
    | some _ => none
    | none =>
      match createWork with
      | .error _ => none
      | .ok work =>
        match Seal work with
        | .error _ => none
        | .ok sealed => some ⟨work, some sealed⟩

/-- The collaborator outcomes visible to one tick of the minting loop. -/
structure TickInput where
  isDpos : Bool
  checkValidator : Option CheckValidatorError
  createWork : Except String Work
  Seal : Work → Except Unit DATx.Block

/-- Translation of `worker.mintLoop` (src/unnamed/part_008, lines 238-251) over a finite
trace of ticks: every tick runs `mintBlock`; an attempt that produces no
result never stops the loop. -/
def mintLoop (ticks : List TickInput) : List Result :=
  ticks.filterMap (fun t => mintBlock t.isDpos t.checkValidator t.createWork t.Seal)

/-- The `core.WriteStatus` values returned by `WriteBlockAndState`. -/
inductive WriteStatus where
  | CanonStatTy
  | SideStatTy
  | NonStatTy
deriving DecidableEq, Repr

/-- The events posted by the commit path: `core.NewMinedBlockEvent`,
`core.ChainEvent` and `core.ChainHeadEvent`. -/
inductive MinedEvent where
  | NewMinedBlockEvent (b : DATx.Block)
  | ChainEvent (b : DATx.Block)
  | ChainHeadEvent (b : DATx.Block)
deriving DecidableEq, Repr

/-- One iteration of `worker.wait` (src/unnamed/part_008, lines 301-348) for
a received result, with the external `WriteBlockAndState` supplied as a
function of the block, the work's receipts and its state: nil results are
skipped; a write error aborts the iteration with no broadcast; otherwise a
new-mined-block event is posted, then a chain event, and a chain-head event
exactly when the write reported canonical status.  Returns the posted events
and the successful write's block and status. -/
def waitStep (write : DATx.Block → List Receipt → StateDB → Except Unit WriteStatus)
    (res : Option Result) : List MinedEvent × Option (DATx.Block × WriteStatus) :=
  match res with
  | none => ([], none)
  | some r =>
    match r.Block with
    | none => ([], none)
    | some block =>
      match write block r.Work.receipts r.Work.state with
      | .error _ => ([], none)
      | .ok stat =>
          (MinedEvent.NewMinedBlockEvent block ::
            MinedEvent.ChainEvent block ::
            (if stat = WriteStatus.CanonStatTy then [MinedEvent.ChainHeadEvent block] else []),
           some (block, stat))

/-- Pipeline: `worker.mintBlock` followed by the `worker.wait` commit path for the
result it produced (if any). -/
def mintAndCommit (t : TickInput)
    (write : DATx.Block → List Receipt → StateDB → Except Unit WriteStatus) :
    List MinedEvent × Option (DATx.Block × WriteStatus) :=
  waitStep write (mintBlock t.isDpos t.checkValidator t.createWork t.Seal)

/-- The error-containment contract of a minting attempt: any eligibility
error, work-creation error or seal error yields no result, and a result is
produced exactly when every step succeeds. -/
def MintSafety (isDpos : Bool) (check : Option CheckValidatorError)
    (createWork : Except String Work) (Seal : Work → Except Unit DATx.Block) : Prop :=
  (∀ e, check = some e → mintBlock isDpos check createWork Seal = none) ∧
  (∀ s, createWork = .error s → mintBlock isDpos check createWork Seal = none) ∧
  (∀ w e, createWork = .ok w → Seal w = .error e →
      mintBlock isDpos check createWork Seal = none) ∧
  (∀ w b, isDpos = true → check = none → createWork = .ok w → Seal w = .ok b →
      mintBlock isDpos check createWork Seal = some ⟨w, some b⟩)

/-- C8: `worker.mintBlock` never propagates an error or terminates the
minting loop: any `CheckValidator` error (the four typed eligibility errors
or any other), a `createNewWork` failure or a `Seal` failure abandons the
attempt with no result, a result is handed to the commit path only when all
three steps succeed, and `mintLoop` goes on to the next tick in every case. -/
theorem mintBlock_never_fatal (t : TickInput) (rest : List TickInput) :
    MintSafety t.isDpos t.checkValidator t.createWork t.Seal ∧
    mintLoop (t :: rest) =
      (mintBlock t.isDpos t.checkValidator t.createWork t.Seal).toList ++ mintLoop rest := by
  constructor
  · refine ⟨?_, ?_, ?_, ?_⟩
    · intro e he
      cases ht : t.isDpos <;> simp [mintBlock, he, ht]
    · intro s hs
      cases ht : t.isDpos <;> cases hc : t.checkValidator <;>
        simp [mintBlock, hs, ht, hc]
    · intro w e hw hseal
      cases ht : t.isDpos <;> cases hc : t.checkValidator <;>
        simp [mintBlock, hw, hseal, ht, hc]
    · intro w b ht hc hw hb
      simp [mintBlock, ht, hc, hw, hb]
  · cases hm : mintBlock t.isDpos t.checkValidator t.createWork t.Seal <;>
      simp [mintLoop, List.filterMap_cons, hm]

/-- A tick whose seal is cancelled (the engine returns an error from `Seal`,
as it does when the quit channel closes mid-seal). -/
def sampleCancelledTick : TickInput :=
  { isDpos := true, checkValidator := none, createWork := .ok sampleEnv,
    Seal := fun _ => .error () }

/-- Concrete instantiation of the mint error containment. -/
theorem mintBlock_never_fatal_witness :
    MintSafety sampleCancelledTick.isDpos sampleCancelledTick.checkValidator
        sampleCancelledTick.createWork sampleCancelledTick.Seal ∧
    mintLoop [sampleCancelledTick] =
      (mintBlock sampleCancelledTick.isDpos sampleCancelledTick.checkValidator
          sampleCancelledTick.createWork sampleCancelledTick.Seal).toList ++
        mintLoop [] :=
  mintBlock_never_fatal sampleCancelledTick []

/-- C9: if the in-progress `Seal` is cancelled by the quit signal and
returns an error, no commit occurs for that candidate: `mintBlock` sends no
result, so the `worker.wait` commit path posts no event and never reaches
`WriteBlockAndState` — for every possible write function the commit outcome
is empty. -/
theorem seal_cancel_no_commit (t : TickInput) (w : Work) (e : Unit)
    (hc : t.createWork = .ok w) (hs : t.Seal w = .error e) :
    ∀ write, mintAndCommit t write = ([], none) := by
  intro write
  have hm : mintBlock t.isDpos t.checkValidator t.createWork t.Seal = none := by
    cases ht : t.isDpos <;> cases hcv : t.checkValidator <;>
      simp [mintBlock, hc, hs, ht, hcv]
  simp [mintAndCommit, hm, waitStep]

/-- Concrete instantiation of seal cancellation: a cancelled seal commits
nothing even under an always-succeeding write function. -/
theorem seal_cancel_no_commit_witness :
    sampleCancelledTick.createWork = .ok sampleEnv ∧
    sampleCancelledTick.Seal sampleEnv = .error () ∧
    mintAndCommit sampleCancelledTick (fun _ _ _ => .ok .CanonStatTy) = ([], none) :=
  ⟨rfl, rfl,
    seal_cancel_no_commit sampleCancelledTick sampleEnv () rfl rfl
      (fun _ _ _ => .ok .CanonStatTy)⟩

/-- The broadcast contract of one `worker.wait` iteration for a result
carrying `block`: a failed write broadcasts nothing; a successful write
always posts the new-mined-block and chain events, and posts the chain-head
event exactly when the reported status is canonical. -/
def BroadcastSpec (write : DATx.Block → List Receipt → StateDB → Except Unit WriteStatus)
    (r : Result) (block : DATx.Block) : Prop :=
  (∀ e, write block r.Work.receipts r.Work.state = .error e →
      waitStep write (some r) = ([], none)) ∧
  (∀ stat, write block r.Work.receipts r.Work.state = .ok stat →
      MinedEvent.NewMinedBlockEvent block ∈ (waitStep write (some r)).1 ∧
      MinedEvent.ChainEvent block ∈ (waitStep write (some r)).1 ∧
      (MinedEvent.ChainHeadEvent block ∈ (waitStep write (some r)).1 ↔
        stat = WriteStatus.CanonStatTy))

/-- C5: for every sealed block received by `worker.wait`, if
`WriteBlockAndState` succeeds then a new-mined-block event and a chain event
are always broadcast regardless of canonical status, and a chain-head event
is broadcast if and only if the returned status is canonical; if the write
fails, no event is broadcast for that block. -/
theorem wait_broadcast (write : DATx.Block → List Receipt → StateDB → Except Unit WriteStatus)
    (r : Result) (block : DATx.Block) (hb : r.Block = some block) :
    BroadcastSpec write r block := by
  constructor
  · intro e he
    simp [waitStep, hb, he]
  · intro stat hstat
    refine ⟨?_, ?_, ?_⟩ <;> cases stat <;> simp [waitStep, hb, hstat]

/-- A sample sealed block and result for the broadcast witness. -/
def sampleBlock : DATx.Block := ⟨sampleHeader, []⟩

/-- A sample commit-path result carrying `sampleBlock`. -/
def sampleResult : Result := ⟨sampleEnv, some sampleBlock⟩

/-- Concrete instantiation of the broadcast contract at a canonical write. -/
theorem wait_broadcast_witness :
    sampleResult.Block = some sampleBlock ∧
    (MinedEvent.NewMinedBlockEvent sampleBlock ∈
        (waitStep (fun _ _ _ => .ok .CanonStatTy) (some sampleResult)).1 ∧
      MinedEvent.ChainEvent sampleBlock ∈
        (waitStep (fun _ _ _ => .ok .CanonStatTy) (some sampleResult)).1 ∧
      (MinedEvent.ChainHeadEvent sampleBlock ∈
          (waitStep (fun _ _ _ => .ok .CanonStatTy) (some sampleResult)).1 ↔
        WriteStatus.CanonStatTy = WriteStatus.CanonStatTy)) :=
  ⟨rfl,
    (wait_broadcast (fun _ _ _ => .ok .CanonStatTy) sampleResult sampleBlock rfl).2
      .CanonStatTy rfl⟩

/-- Successful `Except` bind inversion. -/
theorem exceptBind_ok {ε α β : Type} (x : Except ε α) (f : α → Except ε β)
    (b : β) (h : x >>= f = .ok b) : ∃ a, x = .ok a ∧ f a = .ok b := by
  cases x with
  | error e => exact Except.noConfusion h
  | ok a => exact ⟨a, rfl, h⟩

/-- The collaborator outcomes `worker.createNewWork` draws on: the chain's
state view opened at the parent's root and the DPoS context recovered from
the parent (`makeCurrent`, src/unnamed/part_008 lines 351-385), the
consensus engine's `Prepare` (modelled from the spec: fills the header's
consensus-specific validator field or errors), the pool's pending
transactions, the gas-limit computation `core.CalcGasLimit`, and the
engine's `Finalize` (modelled from the spec: consensus bookkeeping producing
the unsealed block from the finalized header, represented by the final state
root it sets). -/
structure CreateNewWorkDeps where
  stateAt : Nat → Except String StateDB
  dposContextAt : Nat → Except String DposContext
  Prepare : Header → Except String Nat
  pendingTxs : Except String TransactionsByPriceAndNonce
  CalcGasLimit : DATx.Block → Nat
  finalizeRoot : Except String Nat

/-- Translation of `worker.createNewWork` (src/unnamed/part_008, lines 387-491): pick the
timestamp after the parent's, build the candidate header linking to the
parent with consecutive numbering, let the engine prepare it, open the state
and DPoS context at the parent (`makeCurrent`), commit the pending
transactions, and finalize into the unsealed block.  The DAO-fork extra-data
override (active only when a DAO fork block is configured), uncle inclusion
and the too-far-in-future sleep are not modelled; no claim touches them. -/
def createNewWork (deps : CreateNewWorkDeps) (config : ChainConfig)
    (parent : DATx.Block) (now : Nat) (extra : List Nat) (coinbase : Nat)
    (mining : Bool) : Except String Work := do
  let tstamp := if parent.header.time ≥ now then parent.header.time + 1 else now
  let header0 : Header :=
    { parentHash := parent.hash, number := parent.header.number + 1,
      gasLimit := deps.CalcGasLimit parent, gasUsed := 0, time := tstamp,
      extra := extra, coinbase := if mining then coinbase else 0,
      validator := 0, root := 0 }
  let v ← deps.Prepare header0
  let header1 := { header0 with validator := v }
  let st ← deps.stateAt parent.header.root
  let dctx ← deps.dposContextAt parent.hash
  let work0 : Work :=
    { config := config, state := st, dposContext := dctx, tcount := 0,
      Block := none, header := header1, txs := [], receipts := [] }
  let txs ← deps.pendingTxs
  let work1 := (work0.commitTransactions txs).1
  let root ← deps.finalizeRoot
  let header2 := { work1.header with root := root }
  pure { work1 with header := header2, Block := some ⟨header2, work1.txs⟩ }

/-- Committing a transaction batch never touches the header's linkage
fields. -/
theorem commitTransactions_header_link (env : Work)
    (txs : TransactionsByPriceAndNonce) :
    (env.commitTransactions txs).1.header.parentHash = env.header.parentHash ∧
    (env.commitTransactions txs).1.header.number = env.header.number := by
  obtain ⟨rs, -, -, h3, h4, -⟩ :=
    commitTxsGo_invariant txs.size txs le_rfl env env.header.gasLimit []
  exact ⟨h3, h4⟩

/-- C3: every `Work` created by `worker.createNewWork` from parent `P`
has `header.ParentHash = P.Hash()` and `header.Number = P.Number + 1`, and
the unsealed block carried by the work links to the parent the same way. -/
theorem createNewWork_parent_link (deps : CreateNewWorkDeps)
    (config : ChainConfig) (parent : DATx.Block) (now : Nat) (extra : List Nat)
    (coinbase : Nat) (mining : Bool) (w : Work)
    (h : createNewWork deps config parent now extra coinbase mining = .ok w) :
    w.header.parentHash = parent.hash ∧
    w.header.number = parent.header.number + 1 ∧
    ∀ b, w.Block = some b →
      b.header.parentHash = parent.hash ∧
      b.header.number = parent.header.number + 1 := by
  simp only [createNewWork, bind] at h
  obtain ⟨v, hv, h⟩ := exceptBind_ok _ _ _ h
  obtain ⟨st, hst, h⟩ := exceptBind_ok _ _ _ h
  obtain ⟨dctx, hdctx, h⟩ := exceptBind_ok _ _ _ h
  obtain ⟨txs, htxs, h⟩ := exceptBind_ok _ _ _ h
  obtain ⟨root, hroot, h⟩ := exceptBind_ok _ _ _ h
  simp only [pure, Except.pure, Except.ok.injEq] at h
  subst h
  refine ⟨?_, ?_, ?_⟩
  · show ((_ : Work).commitTransactions txs).1.header.parentHash = parent.hash
    rw [(commitTransactions_header_link _ txs).1]
  · show ((_ : Work).commitTransactions txs).1.header.number = parent.header.number + 1
    rw [(commitTransactions_header_link _ txs).2]
  · intro b hb
    simp only [Option.some.injEq] at hb
    subst hb
    constructor
    · show ((_ : Work).commitTransactions txs).1.header.parentHash = parent.hash
      rw [(commitTransactions_header_link _ txs).1]
    · show ((_ : Work).commitTransactions txs).1.header.number = parent.header.number + 1
      rw [(commitTransactions_header_link _ txs).2]

/-- A batch over an empty selector changes nothing and keeps the full pool. -/
theorem commitTransactions_nil (env : Work) :
    env.commitTransactions ⟨[]⟩ = (env, env.header.gasLimit, []) := by
  unfold Work.commitTransactions
  exact commitTxsGo_peek_none env env.header.gasLimit ⟨[]⟩ [] rfl

/-- Concrete collaborator outcomes for the work-creation witness. -/
def sampleDeps : CreateNewWorkDeps :=
  { stateAt := fun _ => .ok ⟨[]⟩, dposContextAt := fun _ => .ok ⟨0⟩,
    Prepare := fun _ => .ok 7, pendingTxs := .ok ⟨[]⟩,
    CalcGasLimit := fun _ => 100, finalizeRoot := .ok 3 }

/-- The header `createNewWork` builds from `sampleBlock` at time 20. -/
def sampleNewHeader : Header :=
  { parentHash := sampleBlock.hash, number := 2, gasLimit := 100, gasUsed := 0,
    time := 20, extra := [], coinbase := 9, validator := 7, root := 3 }

/-- The work `createNewWork` produces from `sampleBlock` under `sampleDeps`. -/
def sampleWork : Work :=
  { config := ⟨some 0⟩, state := ⟨[]⟩, dposContext := ⟨0⟩, tcount := 0,
    Block := some ⟨sampleNewHeader, []⟩, header := sampleNewHeader,
    txs := [], receipts := [] }

/-- Concrete instantiation of the parent-linkage theorem. -/
theorem createNewWork_parent_link_witness :
    createNewWork sampleDeps ⟨some 0⟩ sampleBlock 20 [] 9 true = .ok sampleWork ∧
    sampleWork.header.parentHash = sampleBlock.hash ∧
    sampleWork.header.number = sampleBlock.header.number + 1 := by
  have hcw : createNewWork sampleDeps ⟨some 0⟩ sampleBlock 20 [] 9 true = .ok sampleWork := by
    simp only [createNewWork, sampleDeps, bind, Except.bind, commitTransactions_nil,
      pure, Except.pure]
    rfl
  have h := createNewWork_parent_link sampleDeps ⟨some 0⟩ sampleBlock 20 [] 9 true
    sampleWork hcw
  exact ⟨hcw, h.1, h.2.1⟩

end DATx

namespace DATx.Les

/-- The per-message-type flow-control costs (`requestCosts` entry read from
`p.fcCosts`): a base cost plus a per-requested-item cost. -/
structure Costs where
  baseCost : Nat
  reqCost : Nat
deriving DecidableEq, Repr

/-- Constant `MaxHeaderFetch` (src/les/handler.go, line 54): the per-request maximum
amount of block headers. -/
def MaxHeaderFetch : Nat := 192

/-- The `reject` closure of `ProtocolManager.handleMsg` (src/les/handler.go,
lines 334-349): reject when the peer has no flow-control client or the
requested count exceeds the per-type maximum; otherwise account the cost
(base plus per-request cost, clamped to the buffer limit) against the peer's
current flow-control buffer value and reject when the cost exceeds it. -/
def reject (fcClientPresent : Bool) (bufValue : Nat) (costs : Costs)
    (bufLimit : Nat) (reqCnt maxCnt : Nat) : Bool :=
  if !fcClientPresent || decide (maxCnt < reqCnt) then true
  else
    let cost0 := costs.baseCost + reqCnt * costs.reqCost
    let cost := if bufLimit < cost0 then bufLimit else cost0
    if bufValue < cost then true
    else false

/-- The message codes of the modelled dispatch: the post-handshake status
error, announcements, one representative request type with its per-type
maximum (`GetBlockHeadersMsg` / `MaxHeaderFetch`), one representative
correlated response type (`BlockBodiesMsg`), and a stand-in for every code
outside the protocol (the `default` case); the remaining request and
response cases of src/les/handler.go follow the same shape. -/
inductive MsgCode where
  | StatusMsg
  | AnnounceMsg
  | GetBlockHeadersMsg
  | BlockBodiesMsg
  | unknownMsg
deriving DecidableEq, Repr

/-- An inbound wire message: its code, size, whether its payload decodes,
and the requested item count its query carries. -/
structure Msg where
  code : MsgCode
  size : Nat
  decodeOk : Bool
  reqCnt : Nat
deriving DecidableEq, Repr

/-- The peer state `handleMsg` reads and writes: whether a flow-control
client is attached, the current flow-control buffer value, the response
error counter, and whether the peer requested no announcements. -/
structure Peer where
  fcClientPresent : Bool
  bufValue : Nat
  responseErrors : Nat
  announceTypeIsNone : Bool
deriving DecidableEq, Repr

/-- The protocol-manager state `handleMsg` reads.  `maxMsgSize` models
`ProtocolMaxMsgSize` and `maxResponseErrors` models the response-error
threshold; both constants are declared outside the sources
(src/les/handler.go only uses them), so they are kept as parameters. -/
structure ProtocolManager where
  costs : MsgCode → Costs
  bufLimit : Nat
  maxMsgSize : Nat
  maxResponseErrors : Nat
  odrPresent : Bool

/-- The connection-terminating errors of the modelled dispatch: the
`errCode` values used by `errResp` in src/les/handler.go, plus
`deliveryFailed` standing for the retriever's own error propagated once the
response-error counter exceeds its threshold. -/
inductive HandleError where
  | ErrMsgTooLarge
  | ErrExtraStatusMsg
  | ErrUnexpectedResponse
  | ErrDecode
  | ErrInvalidMsgCode
  | ErrRequestRejected
  | deliveryFailed
deriving DecidableEq, Repr

/-- The outcome of handling one message: terminate the connection with an
error, or keep serving the peer. -/
inductive HandleOutcome where
  | terminated (e : HandleError)
  | handled
deriving DecidableEq, Repr

/-- Translation of `ProtocolManager.handleMsg` (src/les/handler.go, lines 325-1080) over
the modelled codes: oversized messages terminate before dispatch; status
after handshake terminates; announcements are rejected when unrequested and
terminate on a decode failure; a header request terminates on a decode
failure, is answered with `ErrRequestRejected` when the `reject` predicate
fires, and is processed otherwise; a bodies response terminates when no
retrieval backend exists or on a decode failure, and a delivery failure
(`deliverOk = false`) increments the peer's response-error counter,
terminating only once the counter exceeds the threshold; unknown codes
terminate with `ErrInvalidMsgCode`. -/
def handleMsg (pm : ProtocolManager) (p : Peer) (msg : Msg) (deliverOk : Bool) :
    HandleOutcome × Peer :=
  if pm.maxMsgSize < msg.size then (.terminated .ErrMsgTooLarge, p)
  else
    match msg.code with
    | .StatusMsg => (.terminated .ErrExtraStatusMsg, p)
    | .AnnounceMsg =>
      if p.announceTypeIsNone then (.terminated .ErrUnexpectedResponse, p)
      else if !msg.decodeOk then (.terminated .ErrDecode, p)
      else (.handled, p)
    | .GetBlockHeadersMsg =>
      if !msg.decodeOk then (.terminated .ErrDecode, p)
      else if reject p.fcClientPresent p.bufValue (pm.costs .GetBlockHeadersMsg)
          pm.bufLimit msg.reqCnt MaxHeaderFetch then
        (.terminated .ErrRequestRejected, p)
      else (.handled, p)
    | .BlockBodiesMsg =>
      if !pm.odrPresent then (.terminated .ErrUnexpectedResponse, p)
      else if !msg.decodeOk then (.terminated .ErrDecode, p)
      else if deliverOk then (.handled, p)
      else
        let p1 : Peer := { p with responseErrors := p.responseErrors + 1 }
        if pm.maxResponseErrors < p1.responseErrors then (.terminated .deliveryFailed, p1)
        else (.handled, p1)
    | .unknownMsg => (.terminated .ErrInvalidMsgCode, p)

/-- The `reject` predicate fires exactly when the request count exceeds the per-type
maximum, or the peer has no flow-control client, or the accounted cost —
clamped to the buffer limit — exceeds the peer's current buffer value. -/
theorem reject_eq_true_iff (fc : Bool) (bufValue : Nat) (c : Costs)
    (bufLimit reqCnt maxCnt : Nat) :
    reject fc bufValue c bufLimit reqCnt maxCnt = true ↔
      (fc = false ∨ maxCnt < reqCnt ∨
        bufValue < min (c.baseCost + reqCnt * c.reqCost) bufLimit) := by
  simp only [reject]
  split_ifs <;> cases fc <;> simp_all <;> omega

/-- The flow-control contract of a header request: the characterization of
`reject`, and the dispatch answering with `ErrRequestRejected` exactly when
`reject` fires and processing the request otherwise. -/
def FlowControlSpec (pm : ProtocolManager) (p : Peer) (msg : Msg)
    (deliverOk : Bool) : Prop :=
  (reject p.fcClientPresent p.bufValue (pm.costs .GetBlockHeadersMsg) pm.bufLimit
      msg.reqCnt MaxHeaderFetch = true ↔
    (p.fcClientPresent = false ∨ MaxHeaderFetch < msg.reqCnt ∨
      p.bufValue < min ((pm.costs .GetBlockHeadersMsg).baseCost +
          msg.reqCnt * (pm.costs .GetBlockHeadersMsg).reqCost) pm.bufLimit)) ∧
  handleMsg pm p msg deliverOk =
    (if reject p.fcClientPresent p.bufValue (pm.costs .GetBlockHeadersMsg)
        pm.bufLimit msg.reqCnt MaxHeaderFetch
     then (.terminated .ErrRequestRejected, p) else (.handled, p))

/-- C6: for every inbound request-type message, `reject(reqCnt, maxCnt)`
returns true — and the request is answered with `ErrRequestRejected` instead
of being processed — exactly when the requested count exceeds the per-type
maximum, the peer has no flow-control client, or the accounted cost (base
plus per-request cost, clamped to the buffer limit) exceeds the peer's
current flow-control buffer value; otherwise the request is processed. -/
theorem handleMsg_flow_control (pm : ProtocolManager) (p : Peer) (msg : Msg)
    (deliverOk : Bool) (hsize : msg.size ≤ pm.maxMsgSize)
    (hcode : msg.code = .GetBlockHeadersMsg) (hdec : msg.decodeOk = true) :
    FlowControlSpec pm p msg deliverOk := by
  refine ⟨reject_eq_true_iff _ _ _ _ _ _, ?_⟩
  rcases msg with ⟨code, size, dec, reqCnt⟩
  cases hcode
  simp only at hsize hdec
  subst hdec
  simp only [handleMsg, if_neg (Nat.not_lt.mpr hsize), Bool.not_true, Bool.false_eq_true,
    if_false]

/-- A protocol manager with uniform costs for the concrete witnesses. -/
def samplePM : ProtocolManager :=
  { costs := fun _ => ⟨10, 2⟩, bufLimit := 1000, maxMsgSize := 10000,
    maxResponseErrors := 50, odrPresent := true }

/-- A flow-controlled peer with an empty response-error counter. -/
def samplePeer : Peer :=
  { fcClientPresent := true, bufValue := 500, responseErrors := 0,
    announceTypeIsNone := false }

/-- A well-formed header request for 20 headers. -/
def sampleHeadersMsg : Msg :=
  { code := .GetBlockHeadersMsg, size := 100, decodeOk := true, reqCnt := 20 }

/-- Concrete instantiation of the flow-control contract. -/
theorem handleMsg_flow_control_witness :
    sampleHeadersMsg.size ≤ samplePM.maxMsgSize ∧
    sampleHeadersMsg.code = .GetBlockHeadersMsg ∧
    sampleHeadersMsg.decodeOk = true ∧
    FlowControlSpec samplePM samplePeer sampleHeadersMsg true :=
  ⟨by decide, rfl, rfl,
    handleMsg_flow_control samplePM samplePeer sampleHeadersMsg true
      (by decide) rfl rfl⟩

/-- The protocol-error contract of `handleMsg`: oversized, unknown-code and
undecodable messages terminate the connection, while a delivery error on a
correlated response only increments the peer's response-error counter and
terminates only once the counter exceeds the threshold — never on the first
response error when the threshold is at least one. -/
def ProtocolErrorSpec (pm : ProtocolManager) (p : Peer) (msg : Msg)
    (deliverOk : Bool) : Prop :=
  (pm.maxMsgSize < msg.size →
      handleMsg pm p msg deliverOk = (.terminated .ErrMsgTooLarge, p)) ∧
  (msg.size ≤ pm.maxMsgSize → msg.code = .unknownMsg →
      handleMsg pm p msg deliverOk = (.terminated .ErrInvalidMsgCode, p)) ∧
  (msg.size ≤ pm.maxMsgSize → msg.decodeOk = false →
      ((msg.code = .GetBlockHeadersMsg →
          handleMsg pm p msg deliverOk = (.terminated .ErrDecode, p)) ∧
       (msg.code = .BlockBodiesMsg → pm.odrPresent = true →
          handleMsg pm p msg deliverOk = (.terminated .ErrDecode, p)) ∧
       (msg.code = .AnnounceMsg → p.announceTypeIsNone = false →
          handleMsg pm p msg deliverOk = (.terminated .ErrDecode, p)))) ∧
  (msg.size ≤ pm.maxMsgSize → msg.code = .BlockBodiesMsg → pm.odrPresent = true →
      msg.decodeOk = true → deliverOk = false →
      ((handleMsg pm p msg deliverOk).2.responseErrors = p.responseErrors + 1 ∧
       (handleMsg pm p msg deliverOk).1 =
         (if pm.maxResponseErrors < p.responseErrors + 1 then
            HandleOutcome.terminated .deliveryFailed
          else .handled) ∧
       (p.responseErrors = 0 → 1 ≤ pm.maxResponseErrors →
          (handleMsg pm p msg deliverOk).1 = .handled)))

/-- C7: `handleMsg` returns a connection-terminating error for every
message whose code is unknown, whose size exceeds the protocol maximum, or
whose payload fails to decode; a delivery error for a correlated response
only increments the peer's response-error counter and terminates the
connection only once that counter exceeds the `maxResponseErrors` threshold
— never on the first response error (for any positive threshold). -/
theorem handleMsg_protocol_errors (pm : ProtocolManager) (p : Peer) (msg : Msg)
    (deliverOk : Bool) : ProtocolErrorSpec pm p msg deliverOk := by
  rcases msg with ⟨code, size, dec, reqCnt⟩
  refine ⟨?_, ?_, ?_, ?_⟩
  · intro hbig
    simp only at hbig
    simp [handleMsg, hbig]
  · intro hsize hcode
    cases hcode
    simp only at hsize
    simp [handleMsg, Nat.not_lt.mpr hsize]
  · intro hsize hdec
    simp only at hsize hdec
    subst hdec
    refine ⟨?_, ?_, ?_⟩
    · intro hcode
      cases hcode
      simp [handleMsg, Nat.not_lt.mpr hsize]
    · intro hcode hodr
      cases hcode
      simp [handleMsg, Nat.not_lt.mpr hsize, hodr]
    · intro hcode hann
      cases hcode
      simp [handleMsg, Nat.not_lt.mpr hsize, hann]
  · intro hsize hcode hodr hdec hdel
    cases hcode
    simp only at hsize hdec hdel
    subst hdec hdel
    simp only [handleMsg, if_neg (Nat.not_lt.mpr hsize), hodr, Bool.not_true,
      Bool.false_eq_true, if_false, Bool.not_false, if_true]
    refine ⟨?_, ?_, ?_⟩
    · split_ifs <;> rfl
    · split_ifs <;> rfl
    · intro h0 h1
      rw [h0, if_neg (by omega)]

/-- An undecodable bodies response for the protocol-error witness. -/
def sampleBodiesMsg : Msg :=
  { code := .BlockBodiesMsg, size := 100, decodeOk := true, reqCnt := 0 }

/-- A message with a code outside the protocol. -/
def sampleUnknownMsg : Msg :=
  { code := .unknownMsg, size := 100, decodeOk := true, reqCnt := 0 }

/-- Concrete instantiation of the protocol-error contract: an unknown code
terminates the connection, while the first delivery error on a bodies
response only bumps the counter and keeps the connection. -/
theorem handleMsg_protocol_errors_witness :
    handleMsg samplePM samplePeer sampleUnknownMsg true =
      (.terminated .ErrInvalidMsgCode, samplePeer) ∧
    (handleMsg samplePM samplePeer sampleBodiesMsg false).2.responseErrors =
      samplePeer.responseErrors + 1 ∧
    (handleMsg samplePM samplePeer sampleBodiesMsg false).1 = .handled :=
  ⟨(handleMsg_protocol_errors samplePM samplePeer sampleUnknownMsg true).2.1
      (by decide) rfl,
    ((handleMsg_protocol_errors samplePM samplePeer sampleBodiesMsg false).2.2.2
        (by decide) rfl rfl rfl rfl).1,
    ((handleMsg_protocol_errors samplePM samplePeer sampleBodiesMsg false).2.2.2
        (by decide) rfl rfl rfl rfl).2.2 rfl (by decide)⟩

end DATx.Les
